import Mathlib

/-!
# Mobility node (`src/mobility/src/mobility.cpp`): shallow embedding

The node is a set of callbacks over process-wide variables.  Here the variables
are one record `Node`, every callback is a function on that record, and every
publication is appended to the record's `published` trace.

The C++ code computes on `float`/`double`.  The definitions below are generic
in the numeric carrier `α`: they use only the arithmetic operators, the literals
and the `libm` calls that occur in the source, so they can be run on any
carrier that supplies them.  Theorems that need arithmetic facts are stated at
the carrier `ℝ` (exact arithmetic: rounding, NaN and signed zeros are not
represented).
-/

namespace Mobility

/-- The `math.h` calls and the float comparison that `poseHandler` uses. -/
class Libm (α : Type) where
  cos : α → α
  sin : α → α
  atan2 : α → α → α
  hypot : α → α → α
  lt : α → α → Bool

/-- Modelled from the spec: `Pose.h` is not part of the sources; a pose is the
triple `x`, `y`, `theta` that the code reads and writes, and a freshly created
roster slot is the zero pose. -/
structure pose (α : Type) where
  x : α
  y : α
  theta : α

/-- The two fields of `geometry_msgs::Twist` that `setVelocity` fills. -/
structure Twist (α : Type) where
  linear_x : α
  angular_z : α

/-- One publication (or log line) of the node, named after the publisher. -/
inductive Out (α : Type) where
  | velocityPublish (velocity : Twist α)
  | stateMachinePublish (data : String)
  | status_publisher (data : String)
  | messagePublish (data : String)
  | posePublisher (name : String) (x y theta : α)
  | localPublisher (data : α)
  | globalPublisher (data : α)
  | rosInfo (current_time : α)

/-- The process-wide variables of the node, followed by the three pieces of its
environment that the handlers touch: the ROS clock, the time since
`killSwitchTimer` was last (re)started, and the trace of everything published
so far (oldest first, each entry with the clock value at which it was sent). -/
structure Node (α : Type) where
  rover_name : String
  is_published_name : Bool
  my_angular : α
  my_angular_new : α
  simulation_mode : Int
  current_location : pose α
  my_rover : List (pose α)
  transitions_to_auto : Int
  time_stamp_transition_to_auto : α
  state_machine_state : Int
  clock : α
  killSwitchElapsed : α
  published : List (α × Out α)

/-- The macro `STATE_MACHINE_TRANSLATE`. -/
def STATE_MACHINE_TRANSLATE : Int := 0

section Generic

variable {α : Type}

/-- The macro `KP`. -/
def KP [OfNat α 1] : α := 1

/-- The global `kill_switch_timeout`. -/
def kill_switch_timeout [OfNat α 10] : α := 10

/-- The value of a roster slot created by `vector <pose> my_rover(6)`. -/
def zeroPose [OfNat α 0] : pose α := ⟨0, 0, 0⟩

/-- The node right after `main` has set `rover_name` and created the timers. -/
def init [OfNat α 0] (name : String) : Node α :=
  { rover_name := name
    is_published_name := false
    my_angular := 0
    my_angular_new := 0
    simulation_mode := 0
    current_location := zeroPose
    my_rover := List.replicate 6 zeroPose
    transitions_to_auto := 0
    time_stamp_transition_to_auto := 0
    state_machine_state := STATE_MACHINE_TRANSLATE
    clock := 0
    killSwitchElapsed := 0
    published := [] }

/-- Append one publication, stamped with the current clock. -/
def publish (o : Out α) (s : Node α) : Node α :=
  { s with published := s.published ++ [(s.clock, o)] }

/-- `setVelocity`: restart `killSwitchTimer`, scale, publish. -/
def setVelocity [Mul α] [OfNat α 0] [OfNat α 8] [OfScientific α]
    (linearVel angularVel : α) (s : Node α) : Node α :=
  let s := { s with killSwitchElapsed := 0 }
  let velocity : Twist α := ⟨linearVel * 1.5, angularVel * 8⟩
  publish (Out.velocityPublish velocity) s

/-- `mobilityStateMachine`. -/
def mobilityStateMachine [Mul α] [OfNat α 0] [OfNat α 8] [OfScientific α]
    (s : Node α) : Node α :=
  if s.simulation_mode = 2 ∨ s.simulation_mode = 3 then
    let s :=
      if s.transitions_to_auto = 0 then
        { s with transitions_to_auto := s.transitions_to_auto + 1
                 time_stamp_transition_to_auto := s.clock }
      else s
    if s.state_machine_state = STATE_MACHINE_TRANSLATE then
      let angular_velocity := s.my_angular_new
      let linear_velocity : α := 0.05
      let s := setVelocity linear_velocity angular_velocity s
      publish (Out.stateMachinePublish "TRANSLATING") s
    else
      publish (Out.stateMachinePublish "DEFAULT CASE: SOMETHING WRONG!!!!") s
  else
    let converter := "CURRENT MODE: " ++ toString s.simulation_mode
    publish (Out.stateMachinePublish ("WAITING, " ++ converter)) s

/-- `targetHandler`: empty body. -/
def targetHandler (s : Node α) : Node α := s

/-- `modeHandler`; `data` is the `UInt8` payload. -/
def modeHandler [Mul α] [OfNat α 0] [OfNat α 8] [OfScientific α]
    (data : Nat) (s : Node α) : Node α :=
  let s := { s with simulation_mode := (data : Int) }
  setVelocity 0 0 s

/-- `obstacleHandler`: every branch is empty. -/
def obstacleHandler (data : Nat) (s : Node α) : Node α :=
  if data > 0 then (if data = 1 then s else s) else s

/-- `odometryHandler`; `yaw` is the result of the `tf` quaternion conversion. -/
def odometryHandler (x y yaw : α) (s : Node α) : Node α :=
  let s := { s with current_location := ⟨x, y, yaw⟩ }
  publish (Out.posePublisher s.rover_name s.current_location.x s.current_location.y
    s.current_location.theta) s

/-- `joyCmdHandler`. -/
def joyCmdHandler [Mul α] [OfNat α 0] [OfNat α 8] [OfScientific α]
    (linear_x angular_z : α) (s : Node α) : Node α :=
  if s.simulation_mode = 0 ∨ s.simulation_mode = 1 then
    setVelocity linear_x angular_z s
  else s

/-- `publishStatusTimerEventHandler`. -/
def publishStatusTimerEventHandler (s : Node α) : Node α :=
  let s :=
    if !s.is_published_name then
      let s := publish (Out.messagePublish ("I " ++ s.rover_name)) s
      { s with is_published_name := true }
    else s
  publish (Out.status_publisher "online") s

/-- `killSwitchTimerEventHandler`. -/
def killSwitchTimerEventHandler [Mul α] [OfNat α 0] [OfNat α 8] [OfScientific α]
    (s : Node α) : Node α :=
  let s := setVelocity 0 0 s
  let current_time := s.clock
  publish (Out.rosInfo current_time) s

/-- `messageHandler`: empty body. -/
def messageHandler (_data : String) (s : Node α) : Node α := s

/-- The chain of name tests at the top of `poseHandler`.  `i` is declared
without an initialiser; `i0` is the indeterminate value it holds before the
tests. -/
def resolveSlot (rover_name : String) (i0 : Int) : Int :=
  let i := i0
  let i := if rover_name = "ajax" then 0 else i
  let i := if rover_name = "aeneas" then 1 else i
  let i := if rover_name = "achilles" then 2 else i
  let i := if rover_name = "diomedes" then 3 else i
  let i := if rover_name = "hector" then 4 else i
  let i := if rover_name = "paris" then 5 else i
  i

/-- The locals of `poseHandler` that the `for` loop updates. -/
structure Acc (α : Type) where
  g_x : α
  g_y : α
  l_x : α
  l_y : α
  all_n_p_x : α
  all_n_p_y : α
  k : Int

/-- One iteration of `for(int j=0;j<=5;j++)` in `poseHandler`. -/
def loopBody [Add α] [Sub α] [OfNat α 0] [OfNat α 2] [Libm α]
    (i : Nat) (current_location : pose α) (my_rover : List (pose α))
    (a : Acc α) (j : Nat) : Acc α :=
  let a := { a with g_x := a.g_x + Libm.cos (my_rover.getD j zeroPose).theta
                    g_y := a.g_y + Libm.sin (my_rover.getD j zeroPose).theta }
  if i ≠ j ∧
      Libm.lt (Libm.hypot ((my_rover.getD i zeroPose).x - (my_rover.getD j zeroPose).x)
        ((my_rover.getD i zeroPose).y - (my_rover.getD j zeroPose).y)) 2 = true then
    { a with k := a.k + 1
             l_x := a.l_x + Libm.cos (my_rover.getD j zeroPose).theta
             l_y := a.l_y + Libm.sin (my_rover.getD j zeroPose).theta
             all_n_p_x := a.all_n_p_x + ((my_rover.getD j zeroPose).x - current_location.x)
             all_n_p_y := a.all_n_p_y + ((my_rover.getD j zeroPose).y - current_location.y) }
  else a

/-- The locals of `poseHandler` before the loop. -/
def acc0 [OfNat α 0] : Acc α := ⟨0, 0, 0, 0, 0, 0, 0⟩

/-- The whole `for` loop of `poseHandler`. -/
def poseLoop [Add α] [Sub α] [OfNat α 0] [OfNat α 2] [Libm α]
    (i : Nat) (current_location : pose α) (my_rover : List (pose α)) : Acc α :=
  (List.range 6).foldl (loopBody i current_location my_rover) acc0

/-- The target point `(p_x, p_y)` computed after the loop. -/
def targetPoint [Add α] [Div α] [IntCast α] (current_location : pose α) (a : Acc α) : α × α :=
  if a.k = 0 then
    (current_location.x, current_location.y)
  else
    (current_location.x + a.all_n_p_x / (a.k : α), current_location.y + a.all_n_p_y / (a.k : α))

/-- `poseHandler`.  `data` is the text of the received broadcast and `i0` the
indeterminate initial value of the local `i`.  Writing `my_rover[i]` outside the
six slots is undefined behaviour: the model stops with `none`. -/
def poseHandler [Add α] [Sub α] [Mul α] [Div α] [OfNat α 0] [OfNat α 1] [OfNat α 2]
    [IntCast α] [Libm α] (_data : String) (i0 : Int) (s : Node α) : Option (Node α) :=
  let i := resolveSlot s.rover_name i0
  if 0 ≤ i ∧ i < (s.my_rover.length : Int) then
    let my_rover := s.my_rover.set i.toNat s.current_location
    let a := poseLoop i.toNat s.current_location my_rover
    let p := targetPoint s.current_location a
    let local_heading := Libm.atan2 a.l_y a.l_x
    let global_heading := Libm.atan2 a.g_y a.g_x
    let new_local_heading := Libm.atan2 p.2 p.1
    let s := { s with my_rover := my_rover }
    let s := publish (Out.localPublisher local_heading) s
    let s := publish (Out.globalPublisher global_heading) s
    some { s with my_angular_new := KP * (new_local_heading - s.current_location.theta)
                  my_angular := KP * (local_heading - s.current_location.theta) }
  else none

/-- What the callback queue can deliver to the node. -/
inductive Event (α : Type) where
  | joyCmd (linear_x angular_z : α)
  | mode (data : Nat)
  | target
  | obstacle (data : Nat)
  | odometry (x y yaw : α)
  | message (data : String)
  | pose (data : String) (i0 : Int)
  | stateMachineTimer
  | publishStatusTimer

/-- Run the callback that `main` registered for the event. -/
def handle [Add α] [Sub α] [Mul α] [Div α] [OfNat α 0] [OfNat α 1] [OfNat α 2] [OfNat α 8]
    [OfScientific α] [IntCast α] [Libm α] (e : Event α) (s : Node α) : Option (Node α) :=
  match e with
  | .joyCmd l a => some (joyCmdHandler l a s)
  | .mode d => some (modeHandler d s)
  | .target => some (targetHandler s)
  | .obstacle d => some (obstacleHandler d s)
  | .odometry x y yaw => some (odometryHandler x y yaw s)
  | .message d => some (messageHandler d s)
  | .pose d i0 => poseHandler d i0 s
  | .stateMachineTimer => some (mobilityStateMachine s)
  | .publishStatusTimer => some (publishStatusTimerEventHandler s)

/-- Let `d` seconds pass with no callback running. -/
def advance [Add α] (d : α) (s : Node α) : Node α :=
  { s with clock := s.clock + d, killSwitchElapsed := s.killSwitchElapsed + d }

/-- The most recent velocity command in a trace, with its time stamp. -/
def latestVelocity (l : List (α × Out α)) : Option (α × Twist α) :=
  l.foldl (fun r e =>
    match e.2 with
    | Out.velocityPublish v => some (e.1, v)
    | _ => r) none

/-- The velocity commands that a callback added to the trace `before`. -/
def velocitiesSince (before after : List (α × Out α)) : List (Twist α) :=
  (after.drop before.length).filterMap (fun e =>
    match e.2 with
    | Out.velocityPublish v => some v
    | _ => none)

/-- The test that guards the neighbour branch of the loop body. -/
def passes [Sub α] [OfNat α 0] [OfNat α 2] [Libm α]
    (i : Nat) (my_rover : List (pose α)) (j : Nat) : Bool :=
  decide (i ≠ j) &&
    Libm.lt (Libm.hypot ((my_rover.getD i zeroPose).x - (my_rover.getD j zeroPose).x)
      ((my_rover.getD i zeroPose).y - (my_rover.getD j zeroPose).y)) 2

/-- Neighbour set of spec §4.2 step 2: the poses of the slots `j ≠ i` whose
distance to the self pose is strictly below `R = 2`, in slot order. -/
def neighbors [Sub α] [OfNat α 0] [OfNat α 2] [Libm α]
    (i : Nat) (self : pose α) (roster : List (pose α)) : List (pose α) :=
  ((List.range 6).filter (fun j => decide (i ≠ j) &&
      Libm.lt (Libm.hypot (self.x - (roster.getD j zeroPose).x)
        (self.y - (roster.getD j zeroPose).y)) 2)).map (fun j => roster.getD j zeroPose)

/-- Average of spec §4.2 step 4: the sum of the values divided by their number. -/
def mean [Add α] [Div α] [OfNat α 0] [IntCast α] (l : List α) : α :=
  l.foldl (fun u v => u + v) 0 / (((l.length : Int)) : α)

end Generic

/-- Exact-arithmetic reading of the `math.h` calls: `atan2 y x` is the argument
of `x + y i` in `(-π, π]` (so `atan2 0 0 = 0`), `hypot` the Euclidean norm. -/
noncomputable instance instLibmReal : Libm ℝ where
  cos := Real.cos
  sin := Real.sin
  atan2 y x := Complex.arg ⟨x, y⟩
  hypot x y := Real.sqrt (x ^ 2 + y ^ 2)
  lt x y := decide (x < y)

/-- Let `d` seconds pass with no callback from the queue.  `killSwitchTimer` was
created in `main` with `killSwitchTimerEventHandler` as its callback: when the
timer runs out on the way (it reaches `kill_switch_timeout`), that callback runs
at that moment and the rest of `d` passes afterwards.  The timer follows the
comment in `setVelocity`: stopping and starting it makes it count from 0 again. -/
noncomputable def pass (d : ℝ) (s : Node ℝ) : Node ℝ :=
  if s.killSwitchElapsed + d ≤ kill_switch_timeout then
    advance d s
  else
    advance (s.killSwitchElapsed + d - kill_switch_timeout)
      (killSwitchTimerEventHandler (advance (kill_switch_timeout - s.killSwitchElapsed) s))

/-- One step of the node: the callback queue runs one callback, or time passes
(in pieces of at most `kill_switch_timeout`, the watchdog callback running when
its timer runs out on the way), or the timer has just run out and its callback
runs before anything else happens. -/
inductive Step : Node ℝ → Node ℝ → Prop where
  | callback (e : Event ℝ) (s s' : Node ℝ) : handle e s = some s' → Step s s'
  | delay (d : ℝ) (s : Node ℝ) : 0 < d → d ≤ kill_switch_timeout → Step s (pass d s)
  | killSwitchTimer (s : Node ℝ) :
      s.killSwitchElapsed = kill_switch_timeout → Step s (killSwitchTimerEventHandler s)

/-- The states the node can be in: those reached from `init` by steps. -/
def Reachable (s : Node ℝ) : Prop :=
  ∃ name : String, Relation.ReflTransGen Step (init name) s

/-- The watchdog invariant: the countdown stays within `[0, kill_switch_timeout]`
and equals the age of the latest velocity command. -/
def WatchdogInv (s : Node ℝ) : Prop :=
  0 ≤ s.killSwitchElapsed ∧ s.killSwitchElapsed ≤ kill_switch_timeout ∧
    ∀ t v, latestVelocity s.published = some (t, v) → s.clock - t = s.killSwitchElapsed

/-- The slots `j ≠ i` of the roster whose Euclidean distance to the pose `self`
is strictly below `2`, in slot order. -/
noncomputable def neighborSlots (i : Nat) (self : pose ℝ) (roster : List (pose ℝ)) : List Nat :=
  (List.range 6).filter (fun j => decide (i ≠ j) &&
    decide (Real.sqrt ((self.x - (roster.getD j zeroPose).x) ^ 2 +
      (self.y - (roster.getD j zeroPose).y) ^ 2) < 2))

/-- A roster for the boundary of the neighbour test, seen from `ajax` at the
origin: slot 1 at distance exactly `2`, slot 2 at distance `1`, the others at
distance `3`. -/
noncomputable def boundaryScenario : Node ℝ :=
  { init "ajax" with
    my_rover := [⟨0, 0, 0⟩, ⟨2, 0, 0⟩, ⟨1, 0, 0⟩, ⟨3, 0, 0⟩, ⟨3, 0, 0⟩, ⟨3, 0, 0⟩] }

/-- The roster of the spec scenario, seen from `ajax`: agents at `(0,0,0)`,
`(1,0,0)`, `(0,1,π/2)`; the three slots the scenario does not use hold `rest`. -/
noncomputable def scenario (rest : pose ℝ) : Node ℝ :=
  { init "ajax" with
    my_rover := [⟨0, 0, 0⟩, ⟨1, 0, 0⟩, ⟨0, 1, Real.pi / 2⟩, rest, rest, rest] }

end Mobility

namespace Mobility
open Real

/-! ## Helper lemmas -/

section Helpers

variable {α : Type}

theorem velocitiesSince_append (l m : List (α × Out α)) :
    velocitiesSince l (l ++ m) = m.filterMap (fun e =>
      match e.2 with
      | Out.velocityPublish v => some v
      | _ => none) := by
  simp [velocitiesSince]

end Helpers

/-- Every callback leaves `state_machine_state` and the clock as they are and
only appends to the trace. -/
theorem handle_frame (e : Event ℝ) (s s' : Node ℝ) (h : handle e s = some s') :
    s'.state_machine_state = s.state_machine_state ∧ s'.clock = s.clock ∧
      s.published <+: s'.published := by
  cases e <;> simp only [handle, Option.some.injEq, poseHandler] at h
  case pose =>
    split_ifs at h
    simp only [Option.some.injEq] at h
    subst h
    simp [publish]
  all_goals
    subst h
    simp only [joyCmdHandler, modeHandler, targetHandler, obstacleHandler, odometryHandler,
      messageHandler, mobilityStateMachine, publishStatusTimerEventHandler, setVelocity, publish]
    first
      | (split_ifs <;> simp)
      | simp

/-- A callback either leaves both the countdown and the latest velocity command
untouched, or restarts the countdown and makes a command stamped with the
current clock the latest one. -/
theorem handle_watchdog (e : Event ℝ) (s s' : Node ℝ) (h : handle e s = some s') :
    (s'.killSwitchElapsed = s.killSwitchElapsed ∧
        latestVelocity s'.published = latestVelocity s.published) ∨
      (s'.killSwitchElapsed = 0 ∧
        ∃ v, latestVelocity s'.published = some (s.clock, v)) := by
  cases e <;> simp only [handle, Option.some.injEq, poseHandler] at h
  case pose =>
    split_ifs at h
    simp only [Option.some.injEq] at h
    subst h
    simp [publish, latestVelocity, List.foldl_append]
  all_goals
    subst h
    simp only [joyCmdHandler, modeHandler, targetHandler, obstacleHandler, odometryHandler,
      messageHandler, mobilityStateMachine, publishStatusTimerEventHandler, setVelocity, publish]
    first
      | (split_ifs <;> simp [latestVelocity, List.foldl_append])
      | simp [latestVelocity, List.foldl_append]

theorem killSwitch_eq (s : Node ℝ) :
    killSwitchTimerEventHandler s =
      { s with killSwitchElapsed := 0
               published := s.published ++
                 [(s.clock, Out.velocityPublish ⟨0, 0⟩), (s.clock, Out.rosInfo s.clock)] } := by
  simp [killSwitchTimerEventHandler, setVelocity, publish]

theorem pass_of_le (d : ℝ) (s : Node ℝ) (h : s.killSwitchElapsed + d ≤ kill_switch_timeout) :
    pass d s = advance d s := by
  simp only [pass, if_pos h]

theorem pass_of_lt (d : ℝ) (s : Node ℝ) (h : kill_switch_timeout < s.killSwitchElapsed + d) :
    pass d s =
      { s with clock := s.clock + (kill_switch_timeout - s.killSwitchElapsed) +
                 (s.killSwitchElapsed + d - kill_switch_timeout)
               killSwitchElapsed := 0 + (s.killSwitchElapsed + d - kill_switch_timeout)
               published := s.published ++
                 [(s.clock + (kill_switch_timeout - s.killSwitchElapsed),
                    Out.velocityPublish ⟨0, 0⟩),
                  (s.clock + (kill_switch_timeout - s.killSwitchElapsed),
                    Out.rosInfo (s.clock + (kill_switch_timeout - s.killSwitchElapsed)))] } := by
  simp only [pass, if_neg (not_le.mpr h), killSwitch_eq, advance]

/-- Every step leaves `state_machine_state` as it is and only appends to the trace. -/
theorem step_frame (s s' : Node ℝ) (h : Step s s') :
    s'.state_machine_state = s.state_machine_state ∧ s.published <+: s'.published := by
  cases h with
  | callback e _ _ he => exact ⟨(handle_frame e s s' he).1, (handle_frame e s s' he).2.2⟩
  | delay d _ _ _ =>
    by_cases hd : s.killSwitchElapsed + d ≤ kill_switch_timeout
    · simp [pass_of_le d s hd, advance]
    · simp [pass_of_lt d s (not_le.mp hd)]
  | killSwitchTimer _ _ => simp [killSwitch_eq]

theorem steps_frame (s s' : Node ℝ) (h : Relation.ReflTransGen Step s s') :
    s'.state_machine_state = s.state_machine_state ∧ s.published <+: s'.published := by
  induction h with
  | refl => simp
  | tail _ hstep ih =>
    obtain ⟨h1, h2⟩ := step_frame _ _ hstep
    exact ⟨h1.trans ih.1, ih.2.trans h2⟩

theorem reachable_state_machine_state (s : Node ℝ) (h : Reachable s) :
    s.state_machine_state = STATE_MACHINE_TRANSLATE := by
  obtain ⟨name, hs⟩ := h
  exact (steps_frame _ _ hs).1

theorem step_watchdogInv (s s' : Node ℝ) (h : Step s s') (hs : WatchdogInv s) :
    WatchdogInv s' := by
  obtain ⟨h0, h1, h2⟩ := hs
  cases h with
  | callback e _ _ he =>
    have hc := (handle_frame e s s' he).2.1
    rcases handle_watchdog e s s' he with ⟨hk, hl⟩ | ⟨hk, v, hl⟩
    · refine ⟨hk ▸ h0, hk ▸ h1, fun t v hv => ?_⟩
      rw [hc, hk]
      exact h2 t v (hl ▸ hv)
    · refine ⟨by rw [hk], by rw [hk]; norm_num [kill_switch_timeout], fun t w hv => ?_⟩
      rw [hl] at hv
      simp only [Option.some.injEq, Prod.mk.injEq] at hv
      rw [hc, hk, ← hv.1]
      ring
  | delay d _ hd hdT =>
    by_cases hle : s.killSwitchElapsed + d ≤ kill_switch_timeout
    · rw [pass_of_le d s hle]
      refine ⟨by simp only [advance]; linarith, by simpa [advance] using hle, fun t v hv => ?_⟩
      have := h2 t v (by simpa [advance] using hv)
      simp only [advance]
      linarith
    · have hlt := not_le.mp hle
      rw [pass_of_lt d s hlt]
      refine ⟨by simp only; linarith, by simp only; linarith, fun t v hv => ?_⟩
      simp [latestVelocity, List.foldl_append] at hv
      simp only [← hv.1]
      ring
  | killSwitchTimer _ _ =>
    rw [killSwitch_eq]
    refine ⟨le_refl _, by norm_num [kill_switch_timeout], fun t v hv => ?_⟩
    simp [latestVelocity, List.foldl_append] at hv
    simp [← hv.1]

theorem reachable_watchdogInv (s : Node ℝ) (h : Reachable s) : WatchdogInv s := by
  obtain ⟨name, hs⟩ := h
  induction hs with
  | refl => simp [WatchdogInv, init, latestVelocity, kill_switch_timeout]
  | tail _ hstep ih => exact step_watchdogInv _ _ hstep ih

/-! ## Manual commands, mode changes, the periodic tick -/

/-- C7, counterexample: after the mode message `4` (a code the state machine
does not treat as autonomous) a manual command is dropped: no velocity command
is published and the node is left as it was. -/
theorem joyCmdHandler_mode4_dropped :
    ¬ ((modeHandler 4 (init "ajax") : Node ℝ).simulation_mode = 2 ∨
        (modeHandler 4 (init "ajax") : Node ℝ).simulation_mode = 3) ∧
      joyCmdHandler 1 1 (modeHandler 4 (init "ajax") : Node ℝ) = modeHandler 4 (init "ajax") ∧
      velocitiesSince (modeHandler 4 (init "ajax") : Node ℝ).published
        (joyCmdHandler 1 1 (modeHandler 4 (init "ajax") : Node ℝ)).published = [] := by
  refine ⟨?_, ?_, ?_⟩ <;> simp [joyCmdHandler, modeHandler, setVelocity, publish, init,
    velocitiesSince]

/-- C7, amended: `joyCmdHandler` forwards a manual command exactly when the mode
code is 0 or 1.  Then it publishes the one command `(1.5 * linear, 8 * angular)`
and restarts the watchdog countdown; for every other mode code it changes
nothing. -/
theorem joyCmdHandler_forwards_in_modes_0_1 (linear angular : ℝ) (s : Node ℝ) :
    ((s.simulation_mode = 0 ∨ s.simulation_mode = 1) →
        joyCmdHandler linear angular s =
          { s with killSwitchElapsed := 0
                   published := s.published ++
                     [(s.clock, Out.velocityPublish ⟨1.5 * linear, 8 * angular⟩)] } ∧
        velocitiesSince s.published (joyCmdHandler linear angular s).published =
          [⟨1.5 * linear, 8 * angular⟩]) ∧
      (¬ (s.simulation_mode = 0 ∨ s.simulation_mode = 1) →
        joyCmdHandler linear angular s = s) := by
  constructor
  · intro h
    have h1 : linear * 1.5 = 1.5 * linear := mul_comm _ _
    have h2 : angular * 8 = 8 * angular := mul_comm _ _
    simp only [joyCmdHandler, if_pos h, setVelocity, publish, velocitiesSince_append, h1, h2]
    simp
  · intro h
    simp only [joyCmdHandler, if_neg h]

/-- C7, witness: mode 0 forwards `(2, 3)` as `(3, 24)`; mode 5 drops it. -/
theorem joyCmdHandler_forwards_in_modes_0_1_witness :
    velocitiesSince (init "ajax" : Node ℝ).published
        (joyCmdHandler 2 3 (init "ajax" : Node ℝ)).published = [⟨3, 24⟩] ∧
      joyCmdHandler 2 3 ({ (init "ajax" : Node ℝ) with simulation_mode := 5 }) =
        { (init "ajax" : Node ℝ) with simulation_mode := 5 } := by
  constructor
  · have h := ((joyCmdHandler_forwards_in_modes_0_1 2 3 (init "ajax")).1
      (Or.inl (by simp [init]))).2
    rw [h]
    norm_num
  · exact (joyCmdHandler_forwards_in_modes_0_1 2 3 _).2 (by simp [init])

/-- C8: whatever the node state and the received code, `modeHandler` stores the
code as the control mode, restarts the watchdog countdown and publishes exactly
one velocity command, `(0, 0)`; everything published later, by any sequence of
steps, comes after that command in the trace. -/
theorem modeHandler_stops_first (data : Nat) (s : Node ℝ) :
    modeHandler data s =
        { s with simulation_mode := (data : Int)
                 killSwitchElapsed := 0
                 published := s.published ++ [(s.clock, Out.velocityPublish ⟨0, 0⟩)] } ∧
      velocitiesSince s.published (modeHandler data s).published = [⟨0, 0⟩] ∧
      ∀ s'' : Node ℝ, Relation.ReflTransGen Step (modeHandler data s) s'' →
        s.published ++ [(s.clock, Out.velocityPublish ⟨0, 0⟩)] <+: s''.published := by
  have h : modeHandler data s =
      { s with simulation_mode := (data : Int)
               killSwitchElapsed := 0
               published := s.published ++ [(s.clock, Out.velocityPublish ⟨0, 0⟩)] } := by
    simp [modeHandler, setVelocity, publish]
  refine ⟨h, ?_, fun s'' hs => ?_⟩
  · rw [h]
    simp [velocitiesSince_append]
  · have := (steps_frame _ _ hs).2
    rwa [h] at this

/-- C8, witness: from manual mode, the mode message `2` followed by one tick
leaves the `(0, 0)` command in the trace ahead of whatever the tick published. -/
theorem modeHandler_stops_first_witness :
    (init "ajax" : Node ℝ).published ++
        [((init "ajax" : Node ℝ).clock, Out.velocityPublish ⟨0, 0⟩)] <+:
      (mobilityStateMachine (modeHandler 2 (init "ajax" : Node ℝ))).published :=
  (modeHandler_stops_first 2 (init "ajax")).2.2 _
    (Relation.ReflTransGen.single (Step.callback Event.stateMachineTimer _ _ rfl))

/-- C9: in every reachable node state a tick of `mobilityStateMachine` publishes
a velocity command if and only if the mode is 2 or 3.  In that case it publishes
exactly one, `(1.5 * 0.05, 8 * my_angular_new)`, through `setVelocity` (which
restarts the countdown), followed by the status `TRANSLATING`.  Otherwise the
only effect of the tick is the status `WAITING, CURRENT MODE: <mode>`. -/
theorem mobilityStateMachine_tick (s : Node ℝ) (h : Reachable s) :
    (velocitiesSince s.published (mobilityStateMachine s).published ≠ [] ↔
        (s.simulation_mode = 2 ∨ s.simulation_mode = 3)) ∧
      ((s.simulation_mode = 2 ∨ s.simulation_mode = 3) →
        (mobilityStateMachine s).published = s.published ++
            [(s.clock, Out.velocityPublish ⟨1.5 * 0.05, 8 * s.my_angular_new⟩),
             (s.clock, Out.stateMachinePublish "TRANSLATING")] ∧
          velocitiesSince s.published (mobilityStateMachine s).published =
            [⟨1.5 * 0.05, 8 * s.my_angular_new⟩] ∧
          (mobilityStateMachine s).killSwitchElapsed = 0) ∧
      (¬ (s.simulation_mode = 2 ∨ s.simulation_mode = 3) →
        mobilityStateMachine s =
          publish (Out.stateMachinePublish
            ("WAITING, " ++ ("CURRENT MODE: " ++ toString s.simulation_mode))) s ∧
          velocitiesSince s.published (mobilityStateMachine s).published = [] ∧
          (mobilityStateMachine s).killSwitchElapsed = s.killSwitchElapsed) := by
  have hst := reachable_state_machine_state s h
  have h1 : (0.05 : ℝ) * 1.5 = 1.5 * 0.05 := mul_comm _ _
  have h2 : s.my_angular_new * 8 = 8 * s.my_angular_new := mul_comm _ _
  have hauto : (s.simulation_mode = 2 ∨ s.simulation_mode = 3) →
      (mobilityStateMachine s).published = s.published ++
            [(s.clock, Out.velocityPublish ⟨1.5 * 0.05, 8 * s.my_angular_new⟩),
             (s.clock, Out.stateMachinePublish "TRANSLATING")] ∧
          (mobilityStateMachine s).killSwitchElapsed = 0 := by
    intro hm
    simp only [mobilityStateMachine, if_pos hm]
    split_ifs <;> simp_all [setVelocity, publish]
  have hman : ¬ (s.simulation_mode = 2 ∨ s.simulation_mode = 3) →
      mobilityStateMachine s =
          publish (Out.stateMachinePublish
            ("WAITING, " ++ ("CURRENT MODE: " ++ toString s.simulation_mode))) s := by
    intro hm
    simp only [mobilityStateMachine, if_neg hm]
  refine ⟨?_, fun hm => ⟨(hauto hm).1, ?_, (hauto hm).2⟩, fun hm => ⟨hman hm, ?_, ?_⟩⟩
  · by_cases hm : s.simulation_mode = 2 ∨ s.simulation_mode = 3
    · simp only [hm, iff_true]
      rw [(hauto hm).1]
      simp [velocitiesSince_append]
    · simp only [hm, iff_false, not_not]
      rw [hman hm]
      simp [publish, velocitiesSince_append]
  · rw [(hauto hm).1]
    simp [velocitiesSince_append]
  · rw [hman hm]
    simp [publish, velocitiesSince_append]
  · rw [hman hm]
    simp [publish]

/-- C9, witness: right after the mode message `2` the tick publishes the single
command `(0.075, 0)`; in the initial (manual) state it publishes none. -/
theorem mobilityStateMachine_tick_witness :
    velocitiesSince (modeHandler 2 (init "ajax") : Node ℝ).published
        (mobilityStateMachine (modeHandler 2 (init "ajax") : Node ℝ)).published =
        [⟨0.075, 0⟩] ∧
      velocitiesSince (init "ajax" : Node ℝ).published
        (mobilityStateMachine (init "ajax" : Node ℝ)).published = [] := by
  have hr0 : Reachable (init "ajax" : Node ℝ) := ⟨"ajax", Relation.ReflTransGen.refl⟩
  have hr2 : Reachable (modeHandler 2 (init "ajax") : Node ℝ) :=
    ⟨"ajax", Relation.ReflTransGen.single (Step.callback (Event.mode 2) _ _ rfl)⟩
  constructor
  · have h := ((mobilityStateMachine_tick _ hr2).2.1
      (Or.inl (by simp [modeHandler, setVelocity, publish]))).2.1
    rw [h]
    norm_num [modeHandler, setVelocity, publish, init]
  · exact ((mobilityStateMachine_tick _ hr0).2.2 (by simp [init])).2.1

/-! ## The watchdog -/

/-- C10: in every reachable state the countdown of `killSwitchTimer` lies in
`[0, kill_switch_timeout]` and the latest velocity command, zero or not, is
exactly as old as the countdown, hence never older than the timeout.  When time
passes with no callback from the queue and the countdown runs out on the way,
the watchdog callback runs once, at the moment of expiry: it publishes exactly
one velocity command, `(0, 0)`, and one log line, both stamped with that moment,
the `(0, 0)` command becomes the latest one and the countdown starts again.
While the countdown has not run out, the passage of time publishes nothing. -/
theorem killSwitch_bounds_command_age (s : Node ℝ) (h : Reachable s) :
    (0 ≤ s.killSwitchElapsed ∧ s.killSwitchElapsed ≤ kill_switch_timeout) ∧
      (∀ t v, latestVelocity s.published = some (t, v) →
        s.clock - t = s.killSwitchElapsed ∧ s.clock - t ≤ kill_switch_timeout) ∧
      (∀ d, 0 < d → d ≤ kill_switch_timeout → kill_switch_timeout < s.killSwitchElapsed + d →
        (pass d s).published = s.published ++
            [(s.clock + (kill_switch_timeout - s.killSwitchElapsed),
                Out.velocityPublish ⟨0, 0⟩),
             (s.clock + (kill_switch_timeout - s.killSwitchElapsed),
                Out.rosInfo (s.clock + (kill_switch_timeout - s.killSwitchElapsed)))] ∧
          velocitiesSince s.published (pass d s).published = [⟨0, 0⟩] ∧
          latestVelocity (pass d s).published =
            some (s.clock + (kill_switch_timeout - s.killSwitchElapsed), ⟨0, 0⟩) ∧
          (pass d s).clock = s.clock + d ∧
          (pass d s).killSwitchElapsed = s.killSwitchElapsed + d - kill_switch_timeout ∧
          (pass d s).killSwitchElapsed ≤ kill_switch_timeout) ∧
      (∀ d, 0 < d → s.killSwitchElapsed + d ≤ kill_switch_timeout →
        (pass d s).published = s.published) := by
  obtain ⟨h0, h1, h2⟩ := reachable_watchdogInv s h
  refine ⟨⟨h0, h1⟩, fun t v hv => ?_, fun d hd hdT hlt => ?_, fun d hd hle => ?_⟩
  · have := h2 t v hv
    exact ⟨this, this ▸ h1⟩
  · rw [pass_of_lt d s hlt]
    refine ⟨rfl, ?_, ?_, ?_, ?_, ?_⟩
    · simp [velocitiesSince_append]
    · simp [latestVelocity, List.foldl_append]
    · simp only
      ring
    · simp only
      ring
    · simp only
      linarith
  · rw [pass_of_le d s hle]
    rfl

/-- C10, witness: `ajax` forwards the manual command `(2, 3)` at time 0; 4 s pass,
then 8 s more.  The countdown runs out at time 10: the trace then holds the
command `(3, 24)`, the stop command and the log line stamped `10`, and the stop
command is the latest one. -/
theorem killSwitch_bounds_command_age_witness :
    (pass 8 (pass 4 (joyCmdHandler 2 3 (init "ajax" : Node ℝ)))).published =
        [(0, Out.velocityPublish ⟨3, 24⟩), (10, Out.velocityPublish ⟨0, 0⟩),
         (10, Out.rosInfo 10)] ∧
      latestVelocity (pass 8 (pass 4 (joyCmdHandler 2 3 (init "ajax" : Node ℝ)))).published =
        some (10, ⟨0, 0⟩) := by
  have hs : pass 4 (joyCmdHandler 2 3 (init "ajax" : Node ℝ)) =
      advance 4 (joyCmdHandler 2 3 (init "ajax" : Node ℝ)) :=
    pass_of_le _ _ (by norm_num [joyCmdHandler, setVelocity, publish, init, kill_switch_timeout])
  have hr : Reachable (pass 4 (joyCmdHandler 2 3 (init "ajax" : Node ℝ))) :=
    ⟨"ajax", Relation.ReflTransGen.tail
      (Relation.ReflTransGen.single (Step.callback (Event.joyCmd 2 3) _ _ rfl))
      (Step.delay 4 _ (by norm_num) (by norm_num [kill_switch_timeout]))⟩
  have h := (killSwitch_bounds_command_age _ hr).2.2.1 8 (by norm_num)
    (by norm_num [kill_switch_timeout])
    (by rw [hs]; norm_num [advance, joyCmdHandler, setVelocity, publish, init,
      kill_switch_timeout])
  constructor
  · rw [h.1, hs]
    norm_num [advance, joyCmdHandler, setVelocity, publish, init, kill_switch_timeout]
  · rw [h.2.2.1, hs]
    norm_num [advance, joyCmdHandler, setVelocity, publish, init, kill_switch_timeout]

/-! ## `poseHandler`: slot resolution -/

/-- C1, the code at the failing input: `ajax`, in its initial state, receives the
broadcast `aeneas, 1, 0, 0`.  The handler never reads the text: slot 1 still
holds the zero pose afterwards, and any other text gives the same result. -/
theorem poseHandler_ignores_broadcast :
    (poseHandler "aeneas, 1, 0, 0" 0 (init "ajax" : Node ℝ)).map
        (fun s => s.my_rover.getD 1 zeroPose) = some ⟨0, 0, 0⟩ ∧
      (⟨0, 0, 0⟩ : pose ℝ) ≠ ⟨1, 0, 0⟩ ∧
      ∀ (data : String) (i0 : Int) (s : Node ℝ),
        poseHandler data i0 s = poseHandler "aeneas, 1, 0, 0" i0 s := by
  refine ⟨?_, ?_, fun _ _ _ => rfl⟩
  · simp [poseHandler, resolveSlot, init, publish, zeroPose]
  · simp

/-- C2, the code at the failing input: a node started under the name `zeus`,
located at `(1, 1, 0)`, handles a pose broadcast.  No name test matches, so the
slot index is whatever `i` happened to hold: with `3` the pose lands in the slot
of `diomedes`, with `7` the write is outside the roster. -/
theorem poseHandler_unknown_name :
    (poseHandler "zeus, 1, 1, 0" 3 (odometryHandler 1 1 0 (init "zeus" : Node ℝ))).map
        Node.my_rover =
        some [zeroPose, zeroPose, zeroPose, ⟨1, 1, 0⟩, zeroPose, zeroPose] ∧
      poseHandler "zeus, 1, 1, 0" 7 (odometryHandler 1 1 0 (init "zeus" : Node ℝ)) = none := by
  constructor
  · simp [poseHandler, resolveSlot, init, publish, odometryHandler, List.replicate]
  · simp [poseHandler, resolveSlot, init, publish, odometryHandler]

/-! ## `poseHandler`: the consensus loop -/

section Loop

variable {α : Type} [Add α] [Sub α] [OfNat α 0] [OfNat α 2] [Libm α]

/-- The loop body, with its `if` on the Boolean `passes`. -/
theorem loopBody_eq (i : Nat) (c : pose α) (r : List (pose α)) (a : Acc α) (j : Nat) :
    loopBody i c r a j =
      if passes i r j = true then
        { g_x := a.g_x + Libm.cos (r.getD j zeroPose).theta
          g_y := a.g_y + Libm.sin (r.getD j zeroPose).theta
          k := a.k + 1
          l_x := a.l_x + Libm.cos (r.getD j zeroPose).theta
          l_y := a.l_y + Libm.sin (r.getD j zeroPose).theta
          all_n_p_x := a.all_n_p_x + ((r.getD j zeroPose).x - c.x)
          all_n_p_y := a.all_n_p_y + ((r.getD j zeroPose).y - c.y) }
      else
        { a with g_x := a.g_x + Libm.cos (r.getD j zeroPose).theta
                 g_y := a.g_y + Libm.sin (r.getD j zeroPose).theta } := by
  simp only [loopBody, passes, Bool.and_eq_true, decide_eq_true_eq]

/-- Loop invariant: after the iterations `js`, the counter and the centroid sums
are the count and the left-to-right sums over the iterations that passed the
neighbour test. -/
theorem foldl_loopBody (i : Nat) (c : pose α) (r : List (pose α)) (js : List Nat) (a : Acc α) :
    (js.foldl (loopBody i c r) a).k = a.k + (((js.filter (passes i r)).length : Nat) : Int) ∧
      (js.foldl (loopBody i c r) a).all_n_p_x =
        ((js.filter (passes i r)).map
          (fun j => (r.getD j zeroPose).x - c.x)).foldl (fun u v => u + v) a.all_n_p_x ∧
      (js.foldl (loopBody i c r) a).all_n_p_y =
        ((js.filter (passes i r)).map
          (fun j => (r.getD j zeroPose).y - c.y)).foldl (fun u v => u + v) a.all_n_p_y := by
  induction js generalizing a with
  | nil => simp
  | cons j js ih =>
    rw [List.foldl_cons]
    obtain ⟨h1, h2, h3⟩ := ih (loopBody i c r a j)
    rw [h1, h2, h3, loopBody_eq]
    by_cases hc : passes i r j = true
    · rw [if_pos hc, List.filter_cons_of_pos hc]
      simp only [List.length_cons, List.map_cons, List.foldl_cons]
      refine ⟨?_, trivial, trivial⟩
      push_cast
      ring
    · rw [if_neg hc, List.filter_cons_of_neg hc]
      exact ⟨rfl, rfl, rfl⟩

end Loop

theorem getD_set_self {α : Type} [OfNat α 0] (r : List (pose α)) (i : Nat) (c : pose α)
    (h : i < r.length) : (r.set i c).getD i zeroPose = c := by
  simp [List.getD_eq_getElem?_getD, h]

/-- With self's pose stored in slot `i`, the poses of the iterations that pass the
loop test are the neighbour set of the spec. -/
theorem neighbors_eq_passes {α : Type} [Sub α] [OfNat α 0] [OfNat α 2] [Libm α]
    (r : List (pose α)) (i : Nat) (c : pose α) (h : i < r.length) :
    neighbors i c (r.set i c) =
      ((List.range 6).filter (passes i (r.set i c))).map
        (fun j => (r.set i c).getD j zeroPose) := by
  have hp : passes i (r.set i c) = fun j => decide (i ≠ j) &&
      Libm.lt (Libm.hypot (c.x - ((r.set i c).getD j zeroPose).x)
        (c.y - ((r.set i c).getD j zeroPose).y)) 2 := by
    funext j
    simp only [passes, getD_set_self r i c h]
  rw [hp, neighbors]

section Correction

variable {α : Type} [Add α] [Sub α] [Mul α] [Div α] [OfNat α 0] [OfNat α 1] [OfNat α 2]
  [IntCast α] [Libm α]

/-- The steering correction stored by `poseHandler`, in terms of the spec's
neighbour set: the target point is self's position when the set is empty and
self's position plus the mean offset otherwise. -/
theorem poseHandler_my_angular_new (data : String) (i0 : Int) (s : Node α) (i : Nat)
    (hi : resolveSlot s.rover_name i0 = (i : Int)) (hlt : i < s.my_rover.length) :
    (poseHandler data i0 s).map Node.my_angular_new =
      some (KP * (Libm.atan2
        (if (neighbors i s.current_location (s.my_rover.set i s.current_location)).isEmpty then
          s.current_location.y
        else s.current_location.y +
          mean ((neighbors i s.current_location (s.my_rover.set i s.current_location)).map
            (fun p => p.y - s.current_location.y)))
        (if (neighbors i s.current_location (s.my_rover.set i s.current_location)).isEmpty then
          s.current_location.x
        else s.current_location.x +
          mean ((neighbors i s.current_location (s.my_rover.set i s.current_location)).map
            (fun p => p.x - s.current_location.x))) - s.current_location.theta)) := by
  obtain ⟨hk, hx, hy⟩ := foldl_loopBody i s.current_location
    (s.my_rover.set i s.current_location) (List.range 6) acc0
  have hk' : (poseLoop i s.current_location (s.my_rover.set i s.current_location)).k =
      (((List.filter (passes i (s.my_rover.set i s.current_location))
        (List.range 6)).length : Nat) : Int) := by
    rw [poseLoop, hk]
    simp [acc0]
  have hx' : (poseLoop i s.current_location (s.my_rover.set i s.current_location)).all_n_p_x = _ :=
    hx
  have hy' : (poseLoop i s.current_location (s.my_rover.set i s.current_location)).all_n_p_y = _ :=
    hy
  have hcond : 0 ≤ (i : Int) ∧ (i : Int) < (s.my_rover.length : Int) :=
    ⟨Int.natCast_nonneg i, by exact_mod_cast hlt⟩
  rw [neighbors_eq_passes _ _ _ hlt]
  simp only [poseHandler, hi, if_pos hcond, Int.toNat_ofNat, Option.map_some', publish,
    targetPoint, hk', hx', hy', mean, List.map_map, List.length_map]
  generalize List.filter (passes i (s.my_rover.set i s.current_location)) (List.range 6) = L
  cases L with
  | nil => simp
  | cons j L =>
    have hne : ¬ (((j :: L).length : Nat) : Int) = 0 := by
      simp only [List.length_cons]
      omega
    simp only [if_neg hne, List.map_cons, List.isEmpty_cons, Bool.false_eq_true, if_false]
    rfl

/-- C3: when the neighbour set `N` of self (slots `j ≠ i` at distance `< 2`) is
not empty, the correction stored by `poseHandler` is
`KP * (atan2 (y_i + mean_N (y_j - y_i)) (x_i + mean_N (x_j - x_i)) - theta_i)`,
with `KP = 1`. -/
theorem poseHandler_correction_with_neighbors (data : String) (i0 : Int) (s : Node α) (i : Nat)
    (hlen : s.my_rover.length = 6) (hi : resolveSlot s.rover_name i0 = (i : Int)) (hi6 : i < 6)
    (hN : neighbors i s.current_location (s.my_rover.set i s.current_location) ≠ []) :
    (KP : α) = 1 ∧
      (poseHandler data i0 s).map Node.my_angular_new =
        some (KP * (Libm.atan2
          (s.current_location.y +
            mean ((neighbors i s.current_location (s.my_rover.set i s.current_location)).map
              (fun p => p.y - s.current_location.y)))
          (s.current_location.x +
            mean ((neighbors i s.current_location (s.my_rover.set i s.current_location)).map
              (fun p => p.x - s.current_location.x))) - s.current_location.theta)) := by
  refine ⟨rfl, ?_⟩
  rw [poseHandler_my_angular_new data i0 s i hi (by omega)]
  have he : (neighbors i s.current_location (s.my_rover.set i s.current_location)).isEmpty =
      false := by
    cases hl : neighbors i s.current_location (s.my_rover.set i s.current_location) with
    | nil => exact absurd hl hN
    | cons p l => rfl
  simp only [he, Bool.false_eq_true, if_false]

/-- C4: when no other slot is at distance `< 2` from self, the correction stored
by `poseHandler` is `KP * (atan2 y_i x_i - theta_i)` with `KP = 1`: it is
computed from self's own pose alone. -/
theorem poseHandler_correction_alone (data : String) (i0 : Int) (s : Node α) (i : Nat)
    (hlen : s.my_rover.length = 6) (hi : resolveSlot s.rover_name i0 = (i : Int)) (hi6 : i < 6)
    (hfar : ∀ j, j < 6 → j ≠ i →
      Libm.lt (Libm.hypot (s.current_location.x - (s.my_rover.getD j zeroPose).x)
        (s.current_location.y - (s.my_rover.getD j zeroPose).y)) 2 = false) :
    (KP : α) = 1 ∧
      (poseHandler data i0 s).map Node.my_angular_new =
        some (KP * (Libm.atan2 s.current_location.y s.current_location.x -
          s.current_location.theta)) := by
  refine ⟨rfl, ?_⟩
  rw [poseHandler_my_angular_new data i0 s i hi (by omega)]
  have he : neighbors i s.current_location (s.my_rover.set i s.current_location) = [] := by
    rw [neighbors, List.map_eq_nil_iff, List.filter_eq_nil_iff]
    intro j hj
    rw [List.mem_range] at hj
    by_cases hij : i = j
    · simp [hij]
    · have hget : (s.my_rover.set i s.current_location).getD j zeroPose =
          s.my_rover.getD j zeroPose := by
        simp [List.getD_eq_getElem?_getD, List.getElem?_set_ne hij]
      simp only [hget, hfar j hj (Ne.symm hij), Bool.and_false, Bool.false_eq_true,
        not_false_eq_true]
  simp only [he, List.isEmpty_nil, if_true]

end Correction

/-! ## Exact arithmetic -/

theorem lt_hypot_two (a b : ℝ) :
    Libm.lt (Libm.hypot a b) (2 : ℝ) = decide (a ^ 2 + b ^ 2 < 4) := by
  have h : Real.sqrt (a ^ 2 + b ^ 2) < 2 ↔ a ^ 2 + b ^ 2 < 4 := by
    rw [Real.sqrt_lt' (by norm_num)]
    norm_num
  simp only [Libm.lt, Libm.hypot, h]

theorem atan2_diag (a : ℝ) (ha : 0 < a) : Libm.atan2 a a = π / 4 := by
  have hz : (⟨a, a⟩ : ℂ) =
      ((a * Real.sqrt 2 : ℝ) : ℂ) * (Complex.cos (π / 4 : ℝ) + Complex.sin (π / 4 : ℝ) * Complex.I) := by
    have h2 : Real.sqrt 2 * Real.sqrt 2 = 2 := Real.mul_self_sqrt (by norm_num)
    rw [← Complex.ofReal_cos, ← Complex.ofReal_sin, Real.cos_pi_div_four, Real.sin_pi_div_four]
    apply Complex.ext
    · simp
      linear_combination (-(a / 2)) * h2
    · simp
      linear_combination (-(a / 2)) * h2
  show Complex.arg ⟨a, a⟩ = π / 4
  rw [hz, Complex.arg_mul_cos_add_sin_mul_I (by positivity)]
  constructor <;> linarith [Real.pi_pos]

/-- C3, witness: in the spec scenario (the unused slots far away at `(3,0)`) the
neighbour set of `ajax` is the two agents at `(1,0)` and `(0,1)`, the centroid
offset and the target point are `(1/2, 1/2)` and the correction is `π/4`. -/
theorem poseHandler_correction_with_neighbors_witness :
    neighbors 0 (scenario ⟨3, 0, 0⟩).current_location
        ((scenario ⟨3, 0, 0⟩).my_rover.set 0 (scenario ⟨3, 0, 0⟩).current_location) =
        [⟨1, 0, 0⟩, ⟨0, 1, π / 2⟩] ∧
      mean (([⟨1, 0, 0⟩, ⟨0, 1, π / 2⟩] : List (pose ℝ)).map (fun p => p.x - 0)) = 1 / 2 ∧
      mean (([⟨1, 0, 0⟩, ⟨0, 1, π / 2⟩] : List (pose ℝ)).map (fun p => p.y - 0)) = 1 / 2 ∧
      (poseHandler "aeneas, 1, 0, 0" 0 (scenario ⟨3, 0, 0⟩)).map Node.my_angular_new =
        some (π / 4) := by
  have hN : neighbors 0 (scenario ⟨3, 0, 0⟩).current_location
        ((scenario ⟨3, 0, 0⟩).my_rover.set 0 (scenario ⟨3, 0, 0⟩).current_location) =
        [⟨1, 0, 0⟩, ⟨0, 1, π / 2⟩] := by
    simp [neighbors, scenario, init, zeroPose, List.range_succ, lt_hypot_two, List.filter]
    norm_num
  have hx : mean (([⟨1, 0, 0⟩, ⟨0, 1, π / 2⟩] : List (pose ℝ)).map (fun p => p.x - 0)) =
      1 / 2 := by
    norm_num [mean]
  have hy : mean (([⟨1, 0, 0⟩, ⟨0, 1, π / 2⟩] : List (pose ℝ)).map (fun p => p.y - 0)) =
      1 / 2 := by
    norm_num [mean]
  have h := (poseHandler_correction_with_neighbors "aeneas, 1, 0, 0" 0 (scenario ⟨3, 0, 0⟩) 0
    (by simp [scenario]) (by simp [scenario, init, resolveSlot]) (by norm_num)
    (by rw [hN]; simp)).2
  refine ⟨hN, hx, hy, ?_⟩
  rw [h, hN]
  have hc : (scenario ⟨3, 0, 0⟩).current_location = ⟨0, 0, 0⟩ := rfl
  rw [hc]
  simp only [hx, hy, KP]
  rw [show (0 : ℝ) + 1 / 2 = 1 / 2 by norm_num, atan2_diag _ (by norm_num)]
  norm_num

/-- C4, witness: `ajax` alone at `(3, 3)` with heading `1`, every other slot at
the origin (distance `√18`): the correction is `π/4 - 1`. -/
theorem poseHandler_correction_alone_witness :
    (poseHandler "aeneas, 0, 0, 0" 0 (odometryHandler 3 3 1 (init "ajax" : Node ℝ))).map
      Node.my_angular_new = some (π / 4 - 1) := by
  have h := (poseHandler_correction_alone "aeneas, 0, 0, 0" 0
    (odometryHandler 3 3 1 (init "ajax" : Node ℝ)) 0
    (by simp [odometryHandler, publish, init])
    (by simp [odometryHandler, publish, init, resolveSlot]) (by norm_num)
    (by
      intro j hj _
      have hz : ((odometryHandler 3 3 1 (init "ajax" : Node ℝ)).my_rover.getD j zeroPose) =
          zeroPose := by
        simp only [odometryHandler, publish, init]
        interval_cases j <;> rfl
      rw [hz, lt_hypot_two]
      simp only [odometryHandler, publish, zeroPose]
      norm_num)).2
  rw [h]
  simp only [odometryHandler, publish, KP]
  rw [atan2_diag _ (by norm_num)]
  norm_num

/-! ## Local and global heading -/

section Headings

variable {α : Type} [Add α] [Sub α] [OfNat α 0] [OfNat α 2] [Libm α]

/-- Loop invariant for the heading sums: the global sums run over every
iteration, the local sums over the iterations that passed the neighbour test. -/
theorem foldl_loopBody_headings (i : Nat) (c : pose α) (r : List (pose α)) (js : List Nat)
    (a : Acc α) :
    (js.foldl (loopBody i c r) a).g_x =
        (js.map (fun j => Libm.cos (r.getD j zeroPose).theta)).foldl (fun u v => u + v) a.g_x ∧
      (js.foldl (loopBody i c r) a).g_y =
        (js.map (fun j => Libm.sin (r.getD j zeroPose).theta)).foldl (fun u v => u + v) a.g_y ∧
      (js.foldl (loopBody i c r) a).l_x =
        ((js.filter (passes i r)).map
          (fun j => Libm.cos (r.getD j zeroPose).theta)).foldl (fun u v => u + v) a.l_x ∧
      (js.foldl (loopBody i c r) a).l_y =
        ((js.filter (passes i r)).map
          (fun j => Libm.sin (r.getD j zeroPose).theta)).foldl (fun u v => u + v) a.l_y := by
  induction js generalizing a with
  | nil => simp
  | cons j js ih =>
    rw [List.foldl_cons]
    obtain ⟨h1, h2, h3, h4⟩ := ih (loopBody i c r a j)
    rw [h1, h2, h3, h4, loopBody_eq]
    by_cases hc : passes i r j = true
    · rw [if_pos hc, List.filter_cons_of_pos hc]
      exact ⟨rfl, rfl, rfl, rfl⟩
    · rw [if_neg hc, List.filter_cons_of_neg hc]
      exact ⟨rfl, rfl, rfl, rfl⟩

/-- What `poseHandler` publishes: the local heading, then the global heading. -/
theorem poseHandler_published [Mul α] [Div α] [OfNat α 1] [IntCast α]
    (data : String) (i0 : Int) (s : Node α) (i : Nat)
    (hi : resolveSlot s.rover_name i0 = (i : Int)) (hlt : i < s.my_rover.length) :
    (poseHandler data i0 s).map Node.published =
      some (s.published ++
        [(s.clock, Out.localPublisher (Libm.atan2
            (poseLoop i s.current_location (s.my_rover.set i s.current_location)).l_y
            (poseLoop i s.current_location (s.my_rover.set i s.current_location)).l_x)),
         (s.clock, Out.globalPublisher (Libm.atan2
            (poseLoop i s.current_location (s.my_rover.set i s.current_location)).g_y
            (poseLoop i s.current_location (s.my_rover.set i s.current_location)).g_x))]) := by
  have hcond : 0 ≤ (i : Int) ∧ (i : Int) < (s.my_rover.length : Int) :=
    ⟨Int.natCast_nonneg i, by exact_mod_cast hlt⟩
  simp only [poseHandler, hi, if_pos hcond, Int.toNat_ofNat, Option.map_some', publish,
    List.append_assoc, List.singleton_append]

end Headings

theorem sum_range_six_split (f : Nat → ℝ) (i : Nat) (hi : i < 6) :
    ((List.range 6).map f).sum =
      (((List.range 6).filter (fun j => decide (j ≠ i))).map f).sum + f i := by
  interval_cases i <;> simp [List.range_succ, List.filter] <;> ring

theorem foldl_add_eq_sum (l : List ℝ) : l.foldl (fun u v => u + v) 0 = l.sum := by
  rw [List.sum_eq_foldl]

/-- C5, amended: when every other slot is within distance `2` of self, the
published local heading is `atan2` of the heading-vector sum over the five other
slots, and the published global heading is `atan2` of that same sum plus self's
own heading vector `(cos theta_i, sin theta_i)`. -/
theorem poseHandler_headings_all_near (data : String) (i0 : Int) (s : Node ℝ) (i : Nat)
    (hlen : s.my_rover.length = 6) (hi : resolveSlot s.rover_name i0 = (i : Int)) (hi6 : i < 6)
    (hnear : ∀ j, j < 6 → j ≠ i →
      Libm.lt (Libm.hypot (s.current_location.x - (s.my_rover.getD j zeroPose).x)
        (s.current_location.y - (s.my_rover.getD j zeroPose).y)) 2 = true) :
    (poseHandler data i0 s).map Node.published =
      some (s.published ++
        [(s.clock, Out.localPublisher (Libm.atan2
            (((List.range 6).filter (fun j => decide (j ≠ i))).map
              (fun j => Real.sin (s.my_rover.getD j zeroPose).theta)).sum
            (((List.range 6).filter (fun j => decide (j ≠ i))).map
              (fun j => Real.cos (s.my_rover.getD j zeroPose).theta)).sum)),
         (s.clock, Out.globalPublisher (Libm.atan2
            ((((List.range 6).filter (fun j => decide (j ≠ i))).map
              (fun j => Real.sin (s.my_rover.getD j zeroPose).theta)).sum +
                Real.sin s.current_location.theta)
            ((((List.range 6).filter (fun j => decide (j ≠ i))).map
              (fun j => Real.cos (s.my_rover.getD j zeroPose).theta)).sum +
                Real.cos s.current_location.theta)))]) := by
  have hlt : i < s.my_rover.length := by omega
  have hself := getD_set_self s.my_rover i s.current_location hlt
  have hother : ∀ j, j ≠ i → (s.my_rover.set i s.current_location).getD j zeroPose =
      s.my_rover.getD j zeroPose := by
    intro j hj
    simp [List.getD_eq_getElem?_getD, List.getElem?_set_ne (Ne.symm hj)]
  have hfilter : (List.range 6).filter (passes i (s.my_rover.set i s.current_location)) =
      (List.range 6).filter (fun j => decide (j ≠ i)) := by
    apply List.filter_congr
    intro j hj
    rw [List.mem_range] at hj
    by_cases hij : j = i
    · simp only [passes, hij, ne_eq, not_true_eq_false, decide_False, Bool.false_and]
    · have hij' : i ≠ j := Ne.symm hij
      simp only [passes, hself, hother j hij, hnear j hj hij, ne_eq, hij, hij',
        not_false_eq_true, decide_True, Bool.and_self]
  have hmap : ∀ g : pose ℝ → ℝ,
      ((List.range 6).filter (fun j => decide (j ≠ i))).map
          (fun j => g ((s.my_rover.set i s.current_location).getD j zeroPose)) =
        ((List.range 6).filter (fun j => decide (j ≠ i))).map
          (fun j => g (s.my_rover.getD j zeroPose)) := by
    intro g
    apply List.map_congr_left
    intro j hj
    rw [List.mem_filter] at hj
    rw [hother j (by simpa using hj.2)]
  obtain ⟨hgx, hgy, hlx, hly⟩ := foldl_loopBody_headings i s.current_location
    (s.my_rover.set i s.current_location) (List.range 6) acc0
  rw [poseHandler_published data i0 s i hi hlt]
  simp only [poseLoop, hgx, hgy, hlx, hly, hfilter]
  simp only [acc0, foldl_add_eq_sum, Libm.cos, Libm.sin]
  rw [sum_range_six_split (fun j => Real.cos
      ((s.my_rover.set i s.current_location).getD j zeroPose).theta) i hi6,
    sum_range_six_split (fun j => Real.sin
      ((s.my_rover.set i s.current_location).getD j zeroPose).theta) i hi6,
    hself, hmap (fun p => Real.cos p.theta), hmap (fun p => Real.sin p.theta)]

theorem atan2_one_four_ne_one_five : Libm.atan2 (1 : ℝ) 4 ≠ Libm.atan2 (1 : ℝ) 5 := by
  intro h
  change Complex.arg ⟨4, 1⟩ = Complex.arg ⟨5, 1⟩ at h
  have h' := congrArg Real.tan h
  rw [Complex.tan_arg, Complex.tan_arg] at h'
  norm_num at h'

theorem poseLoop_scenario_zero :
    poseLoop 0 (scenario zeroPose).current_location
        ((scenario zeroPose).my_rover.set 0 (scenario zeroPose).current_location) =
      { g_x := 5, g_y := 1, l_x := 4, l_y := 1, all_n_p_x := 1, all_n_p_y := 1, k := 5 } := by
  simp [poseLoop, scenario, init, zeroPose, List.range_succ, loopBody_eq, passes, lt_hypot_two,
    acc0, Libm.cos, Libm.sin]
  norm_num

/-- C5, counterexample: in the spec scenario, the unused slots at the zero pose,
all five other slots are neighbours of `ajax`, yet the published local heading
is `atan2 1 4` and the published global heading is `atan2 1 5`, which differ. -/
theorem poseHandler_local_ne_global :
    neighbors 0 (scenario zeroPose).current_location
        ((scenario zeroPose).my_rover.set 0 (scenario zeroPose).current_location) =
        [⟨1, 0, 0⟩, ⟨0, 1, π / 2⟩, zeroPose, zeroPose, zeroPose] ∧
      (poseHandler "aeneas, 1, 0, 0" 0 (scenario zeroPose)).map Node.published =
        some [(0, Out.localPublisher (Libm.atan2 1 4)),
              (0, Out.globalPublisher (Libm.atan2 1 5))] ∧
      Libm.atan2 (1 : ℝ) 4 ≠ Libm.atan2 (1 : ℝ) 5 := by
  refine ⟨?_, ?_, atan2_one_four_ne_one_five⟩
  · simp [neighbors, scenario, init, zeroPose, List.range_succ, lt_hypot_two, List.filter]
  · rw [poseHandler_published "aeneas, 1, 0, 0" 0 (scenario zeroPose) 0
      (by simp [scenario, init, resolveSlot]) (by simp [scenario]), poseLoop_scenario_zero]
    simp [scenario, init]

/-- C5, witness: in the spec scenario with the unused slots at the zero pose the
local heading is `atan2 1 4` and the global heading is `atan2 (1 + 0) (4 + 1)`. -/
theorem poseHandler_headings_all_near_witness :
    (poseHandler "aeneas, 1, 0, 0" 0 (scenario zeroPose)).map Node.published =
      some [(0, Out.localPublisher (Libm.atan2 1 4)),
            (0, Out.globalPublisher (Libm.atan2 (1 + 0) (4 + 1)))] := by
  have h := poseHandler_headings_all_near "aeneas, 1, 0, 0" 0 (scenario zeroPose) 0
    (by simp [scenario]) (by simp [scenario, init, resolveSlot]) (by norm_num)
    (by
      intro j hj _
      rw [lt_hypot_two]
      interval_cases j <;> simp [scenario, init, zeroPose])
  rw [h]
  simp [scenario, init, zeroPose, List.range_succ, List.filter]
  norm_num

/-! ## Strictness of the neighbour test -/

/-- C6: the neighbour test of `poseHandler` is strict.  A slot `j ≠ i` whose
Euclidean distance to self is exactly `2` is not among the neighbour slots, a
slot `j ≠ i` at distance below `2` is, and the loop of `poseHandler` uses the
neighbour slots and nothing else: its count `k` is their number, its local
heading sums and its centroid sums are the sums over them, and the local heading
it publishes is `atan2` of those local sums. -/
theorem poseHandler_neighbor_test_strict (data : String) (i0 : Int) (s : Node ℝ) (i : Nat)
    (hlen : s.my_rover.length = 6) (hi : resolveSlot s.rover_name i0 = (i : Int)) (hi6 : i < 6) :
    (∀ j, j < 6 → j ≠ i →
        Real.sqrt ((s.current_location.x - (s.my_rover.getD j zeroPose).x) ^ 2 +
          (s.current_location.y - (s.my_rover.getD j zeroPose).y) ^ 2) = 2 →
        j ∉ neighborSlots i s.current_location s.my_rover) ∧
      (∀ j, j < 6 → j ≠ i →
        Real.sqrt ((s.current_location.x - (s.my_rover.getD j zeroPose).x) ^ 2 +
          (s.current_location.y - (s.my_rover.getD j zeroPose).y) ^ 2) < 2 →
        j ∈ neighborSlots i s.current_location s.my_rover) ∧
      (poseLoop i s.current_location (s.my_rover.set i s.current_location)).k =
        ((neighborSlots i s.current_location s.my_rover).length : Int) ∧
      (poseLoop i s.current_location (s.my_rover.set i s.current_location)).l_x =
        ((neighborSlots i s.current_location s.my_rover).map
          (fun j => Real.cos (s.my_rover.getD j zeroPose).theta)).sum ∧
      (poseLoop i s.current_location (s.my_rover.set i s.current_location)).l_y =
        ((neighborSlots i s.current_location s.my_rover).map
          (fun j => Real.sin (s.my_rover.getD j zeroPose).theta)).sum ∧
      (poseLoop i s.current_location (s.my_rover.set i s.current_location)).all_n_p_x =
        ((neighborSlots i s.current_location s.my_rover).map
          (fun j => (s.my_rover.getD j zeroPose).x - s.current_location.x)).sum ∧
      (poseLoop i s.current_location (s.my_rover.set i s.current_location)).all_n_p_y =
        ((neighborSlots i s.current_location s.my_rover).map
          (fun j => (s.my_rover.getD j zeroPose).y - s.current_location.y)).sum ∧
      (poseHandler data i0 s).map (fun s' => s'.published.take (s.published.length + 1)) =
        some (s.published ++
          [(s.clock, Out.localPublisher (Libm.atan2
            (((neighborSlots i s.current_location s.my_rover).map
              (fun j => Real.sin (s.my_rover.getD j zeroPose).theta)).sum)
            (((neighborSlots i s.current_location s.my_rover).map
              (fun j => Real.cos (s.my_rover.getD j zeroPose).theta)).sum)))]) := by
  have hlt : i < s.my_rover.length := by omega
  have hself := getD_set_self s.my_rover i s.current_location hlt
  have hother : ∀ j, j ≠ i → (s.my_rover.set i s.current_location).getD j zeroPose =
      s.my_rover.getD j zeroPose := by
    intro j hj
    simp [List.getD_eq_getElem?_getD, List.getElem?_set_ne (Ne.symm hj)]
  have hfilter : (List.range 6).filter (passes i (s.my_rover.set i s.current_location)) =
      neighborSlots i s.current_location s.my_rover := by
    rw [neighborSlots]
    apply List.filter_congr
    intro j _
    by_cases hij : j = i
    · simp only [passes, hij, ne_eq, not_true_eq_false, decide_False, Bool.false_and]
    · simp only [passes, hself, hother j hij, Libm.lt, Libm.hypot]
  have hmap : ∀ g : pose ℝ → ℝ,
      (neighborSlots i s.current_location s.my_rover).map
          (fun j => g ((s.my_rover.set i s.current_location).getD j zeroPose)) =
        (neighborSlots i s.current_location s.my_rover).map
          (fun j => g (s.my_rover.getD j zeroPose)) := by
    intro g
    apply List.map_congr_left
    intro j hj
    rw [neighborSlots, List.mem_filter] at hj
    have hij : j ≠ i := by
      have := hj.2
      simp only [Bool.and_eq_true, decide_eq_true_eq] at this
      exact Ne.symm this.1
    rw [hother j hij]
  obtain ⟨hk, hx, hy⟩ := foldl_loopBody i s.current_location
    (s.my_rover.set i s.current_location) (List.range 6) acc0
  obtain ⟨_, _, hlx, hly⟩ := foldl_loopBody_headings i s.current_location
    (s.my_rover.set i s.current_location) (List.range 6) acc0
  have hK : (poseLoop i s.current_location (s.my_rover.set i s.current_location)).k =
      ((neighborSlots i s.current_location s.my_rover).length : Int) := by
    rw [poseLoop, hk, hfilter]
    simp [acc0]
  have hLx : (poseLoop i s.current_location (s.my_rover.set i s.current_location)).l_x =
      ((neighborSlots i s.current_location s.my_rover).map
        (fun j => Real.cos (s.my_rover.getD j zeroPose).theta)).sum := by
    rw [poseLoop, hlx, hfilter, ← hmap (fun p => Real.cos p.theta)]
    exact foldl_add_eq_sum _
  have hLy : (poseLoop i s.current_location (s.my_rover.set i s.current_location)).l_y =
      ((neighborSlots i s.current_location s.my_rover).map
        (fun j => Real.sin (s.my_rover.getD j zeroPose).theta)).sum := by
    rw [poseLoop, hly, hfilter, ← hmap (fun p => Real.sin p.theta)]
    exact foldl_add_eq_sum _
  refine ⟨fun j hj hij hd => ?_, fun j hj hij hd => ?_, hK, hLx, hLy, ?_, ?_, ?_⟩
  · rw [neighborSlots, List.mem_filter]
    rintro ⟨_, hp⟩
    simp only [Bool.and_eq_true, decide_eq_true_eq] at hp
    have h2 := hp.2
    rw [hd] at h2
    exact lt_irrefl _ h2
  · rw [neighborSlots, List.mem_filter, List.mem_range]
    refine ⟨hj, ?_⟩
    simp only [Bool.and_eq_true, decide_eq_true_eq]
    exact ⟨Ne.symm hij, hd⟩
  · rw [poseLoop, hx, hfilter, ← hmap (fun p => p.x - s.current_location.x)]
    exact foldl_add_eq_sum _
  · rw [poseLoop, hy, hfilter, ← hmap (fun p => p.y - s.current_location.y)]
    exact foldl_add_eq_sum _
  · have hcomp : (fun s' : Node ℝ => s'.published.take (s.published.length + 1)) =
        (fun l => l.take (s.published.length + 1)) ∘ Node.published := rfl
    rw [hcomp, ← Option.map_map, poseHandler_published data i0 s i hi hlt, hLx, hLy]
    simp [List.take_append_eq_append_take]

/-- C6, witness: `ajax` at the origin with slot 1 at `(2, 0)`, slot 2 at `(1, 0)`
and the other slots at `(3, 0)`: slot 1 is not a neighbour slot, slot 2 is, and
the loop of `poseHandler` counts one neighbour. -/
theorem poseHandler_neighbor_test_strict_witness :
    1 ∉ neighborSlots 0 boundaryScenario.current_location boundaryScenario.my_rover ∧
      2 ∈ neighborSlots 0 boundaryScenario.current_location boundaryScenario.my_rover ∧
      (poseLoop 0 boundaryScenario.current_location
        (boundaryScenario.my_rover.set 0 boundaryScenario.current_location)).k = 1 := by
  have h := poseHandler_neighbor_test_strict "aeneas, 2, 0, 0" 0 boundaryScenario 0
    (by simp [boundaryScenario]) (by simp [boundaryScenario, init, resolveSlot]) (by norm_num)
  have hc : boundaryScenario.current_location = ⟨0, 0, 0⟩ := rfl
  have hr : boundaryScenario.my_rover =
      [⟨0, 0, 0⟩, ⟨2, 0, 0⟩, ⟨1, 0, 0⟩, ⟨3, 0, 0⟩, ⟨3, 0, 0⟩, ⟨3, 0, 0⟩] := rfl
  have h4 : ¬ Real.sqrt 4 < 2 := by
    rw [Real.sqrt_lt' (by norm_num)]
    norm_num
  have h9 : ¬ Real.sqrt 9 < 2 := by
    rw [Real.sqrt_lt' (by norm_num)]
    norm_num
  have hN : neighborSlots 0 boundaryScenario.current_location boundaryScenario.my_rover =
      [2] := by
    rw [hc, hr]
    simp [neighborSlots, List.range_succ, List.filter, h4, h9]
    norm_num
  refine ⟨?_, ?_, ?_⟩
  · refine h.1 1 (by norm_num) (by norm_num) ?_
    rw [hc, hr]
    simp only [List.getD_cons_zero, List.getD_cons_succ]
    rw [show ((0 : ℝ) - 2) ^ 2 + (0 - 0) ^ 2 = 2 ^ 2 by norm_num]
    exact Real.sqrt_sq (by norm_num)
  · refine h.2.1 2 (by norm_num) (by norm_num) ?_
    rw [hc, hr]
    simp only [List.getD_cons_zero, List.getD_cons_succ]
    rw [Real.sqrt_lt' (by norm_num)]
    norm_num
  · rw [h.2.2.1, hN]
    rfl

end Mobility
